import Mathlib

set_option maxRecDepth 8000

/-!
Verification of the duplicate-suppression and batch-scan control loop of
the ai-news-trader repository, together with the messaging helpers.

The embedding follows the two scripts:
  src/trader_bot.py      (namespace TraderBot)
  src/instant_analyst.py (namespace InstantAnalyst)

Modelling conventions:
  - Wall-clock times are integers counting seconds.  The source compares
    the float age_hours = seconds / 3600 with 24; over the reals this is
    equivalent to comparing the seconds with 86400, which is what the
    embedding does.  Likewise the 270 second budget check compares seconds.
  - Every external call (feed fetch, generation API, clock reading,
    message delivery) is an oracle stored in an environment record; results
    that the source obtains from successive calls are drawn from streams
    indexed by a counter threaded through the state, so arbitrary
    collaborator behaviour (including raising) is covered.
  - Python exceptions are modelled with an explicit error component:
    functions return a pair of the state reached and an optional error,
    where an error aborts the remaining computation exactly where the
    source would propagate the exception.
  - A feedparser entry is modelled by the three attributes the source
    reads.  An absent attribute is `none` and reading it raises
    AttributeError.  published_parsed can additionally be present but not
    a parsable time structure (`some none`), in which case slicing it
    raises TypeError, as in the source.
-/

namespace TraderBot

/-- A feedparser entry as read by trader_bot.py: `title`, `link` and the
optional `published_parsed` attribute.  `published = none` means the
attribute is absent (hasattr is false); `published = some none` means it is
present but is `None`, so `entry.published_parsed[:6]` raises; `published =
some (some t)` is a parsed timestamp of `t` seconds. -/
structure Entry where
  title : Option String
  link : Option String
  published : Option (Option Int)
deriving DecidableEq

/-- The uncaught Python exceptions the scan loop can raise. -/
inductive PyErr where
  | attrError
  | typeError
deriving DecidableEq

/-- Observable effects of a run of check_market_news: a generation-API
call, a message dispatch through send_telegram, and a write of the memory
store through save_memory. -/
inductive Event where
  | aiCall (stock title : String)
  | send (msg : String)
  | save (items : List String)
deriving DecidableEq

/-- Environment of one run: the parsed watchlist, the result of reading
news_memory.json, and the oracles for the feed fetches (per watchlist
index), the successive wall-clock readings, and the successive
generation-API results (`error` = the call raised). -/
structure Env where
  stocks : List String
  readMemory : Except Unit (List String)
  fetchFeed : Nat → Except Unit (List Entry)
  clock : Nat → Int
  ai : Nat → Except Unit String

/-- Mutable state threaded through the scan: the in-memory seen set (kept
as its insertion-ordered list of distinct fingerprints), the index of the
next clock reading, the index of the next generation-API call, and the
chronological event trace. -/
structure St where
  seen : List String
  clk : Nat
  aiIdx : Nat
  events : List Event
deriving DecidableEq

/-- news_id = f-string of stock, an underscore and title[:40]. -/
def fingerprint (stock title : String) : String :=
  stock ++ "_" ++ title.take 40

/-- Python set.add: adds the element if it is not already present. -/
def setAdd (l : List String) (x : String) : List String :=
  if x ∈ l then l else l ++ [x]

/-- The sentinel verdict returned by get_ai_signal when the generation
call raises. -/
def sentinelVerdict : String := "Signal: HOLD | Confidence: Low | Why: Error"

/-- load_memory: `set(json.load(f))` on success, the empty set on any
read or parse failure.  The set is represented by the deduplicated list. -/
def load_memory (r : Except Unit (List String)) : List String :=
  match r with
  | .ok l => l.dedup
  | .error _ => []

/-- save_memory: `list(memory_set)[-2000:]` followed by the JSON dump.
The argument is the enumeration of the Python set in its iteration order
(which is hash-based, not insertion order); the function keeps the last
2000 elements of that enumeration. -/
def save_memory (enumeration : List String) : List String :=
  enumeration.drop (enumeration.length - 2000)

/-- get_ai_signal collapses a raised generation call to the sentinel
verdict and otherwise returns the response text. -/
def aiText : Except Unit String → String
  | .ok t => t
  | .error _ => sentinelVerdict

/-- The part of the item body from the duplicate check onward: skip if the
fingerprint is in the seen set; otherwise call get_ai_signal (which
catches its own exceptions and falls back to the sentinel), dispatch the
formatted message through send_telegram (which catches its own exceptions
per recipient and never raises) and add the fingerprint.  The trailing
time.sleep(1.5) reads no clock and is invisible to the state. -/
def afterAge (env : Env) (stock title link : String) (s : St) : St × Option PyErr :=
  if fingerprint stock title ∈ s.seen then
    (s, none)
  else
    ({ seen := setAdd s.seen (fingerprint stock title),
       clk := s.clk,
       aiIdx := s.aiIdx + 1,
       events := s.events
         ++ [Event.aiCall stock title,
             Event.send ("🚨 **" ++ stock ++ "**\n" ++ aiText (env.ai s.aiIdx)
               ++ "\n📰 " ++ title ++ "\n[Source](" ++ link ++ ")")] }, none)

/-- One iteration of the inner item loop: read entry.title and entry.link
(AttributeError if absent), then the age check — performed only when the
entry has a published_parsed attribute, raising if that attribute is not
sliceable, skipping the item when age exceeds 24 hours — and then the rest
of the body. -/
def processEntry (env : Env) (stock : String) (e : Entry) (s : St) : St × Option PyErr :=
  match e.title with
  | none => (s, some PyErr.attrError)
  | some title =>
    match e.link with
    | none => (s, some PyErr.attrError)
    | some link =>
      match e.published with
      | some none => (s, some PyErr.typeError)
      | some (some t) =>
          let now := env.clock s.clk
          let s₁ : St := { s with clk := s.clk + 1 }
          if now - t > 86400 then (s₁, none)
          else afterAge env stock title link s₁
      | none => afterAge env stock title link s

/-- The inner loop over the fetched entries; an error in one item aborts
the whole loop (the source has no try/except around the item body). -/
def processEntries (env : Env) (stock : String) : List Entry → St → St × Option PyErr
  | [], s => (s, none)
  | e :: es, s =>
      match processEntry env stock e s with
      | (s', none) => processEntries env stock es s'
      | (s', some err) => (s', some err)

/-- One watchlist entry: fetch the feed (a raising fetch is caught and the
entry is skipped), skip if there are no entries, otherwise run the item
loop on the top 3 entries. -/
def processStock (env : Env) (i : Nat) (stock : String) (s : St) : St × Option PyErr :=
  match env.fetchFeed i with
  | .error _ => (s, none)
  | .ok entries =>
      if entries = [] then (s, none)
      else processEntries env stock (entries.take 3) s

/-- The outer loop: before each entry read the clock and break out of the
loop when more than 270 seconds have elapsed since startT; an uncaught
error from an item propagates. -/
def loopStocks (env : Env) (startT : Int) : List (Nat × String) → St → St × Option PyErr
  | [], s => (s, none)
  | (i, stock) :: rest, s =>
      let tnow := env.clock s.clk
      let s₁ : St := { s with clk := s.clk + 1 }
      if tnow - startT > 270 then (s₁, none)
      else
        match processStock env i stock s₁ with
        | (s₂, none) => loopStocks env startT rest s₂
        | (s₂, some err) => (s₂, some err)

/-- The tail of check_market_news: on an uncaught exception the run
aborts as is; otherwise save_memory is called exactly when the seen set
grew beyond its size at load (`initial`). -/
def finalize (initial : Nat) : St × Option PyErr → St × Option PyErr
  | (s, some err) => (s, some err)
  | (s, none) =>
      if s.seen.length > initial then
        ({ s with events := s.events ++ [Event.save s.seen] }, none)
      else (s, none)

/-- check_market_news: load the memory, record its size, read the start
time, run the watchlist loop, and finish with the conditional save. -/
def check_market_news (env : Env) : St × Option PyErr :=
  finalize (load_memory env.readMemory).length
    (loopStocks env (env.clock 0) env.stocks.enum
      { seen := load_memory env.readMemory, clk := 1, aiIdx := 0,
        events := [] })

/-- Model of Python str.split with a one-character separator, on the
character list of the string: splitting the empty string gives one empty
field, and every separator occurrence opens a new field. -/
def pySplitChars (sep : Char) : List Char → List (List Char)
  | [] => [[]]
  | c :: cs =>
      if c = sep then [] :: pySplitChars sep cs
      else
        match pySplitChars sep cs with
        | [] => [[c]]
        | h :: t => (c :: h) :: t

/-- Python str.split(sep) for a one-character separator. -/
def pySplit (sep : Char) (s : String) : List String :=
  (pySplitChars sep s.data).map String.mk

/-- Python str.strip(): whitespace removed from both ends. -/
def pyStrip (s : String) : String :=
  String.mk (((s.data.dropWhile Char.isWhitespace).reverse.dropWhile
      Char.isWhitespace).reverse)

/-- The recipient loop of send_telegram: one requests.post attempt per id
of the comma-separated CHAT_ID, with the id stripped in the payload.  The
`deliver` oracle gives each post outcome, but the body wraps the post in
try/except and only prints, so the outcome cannot influence which attempts
are made; `k` counts the posts.  The result is the list of (recipient,
text) attempts in order. -/
def sendLoop (message : String) (deliver : Nat → Bool) :
    List String → Nat → List (String × String)
  | [], _ => []
  | u :: us, k => (pyStrip u, message) :: sendLoop message deliver us (k + 1)

/-- send_telegram of trader_bot.py: split CHAT_ID on commas and attempt a
single unchunked post of the whole message to every recipient. -/
def send_telegram (chatID message : String) (deliver : Nat → Bool) :
    List (String × String) :=
  sendLoop message deliver (pySplit ',' chatID) 0

/-- An entry is well formed when the three attributes the item body reads
can all be read without raising: title and link are present, and
published_parsed, if present, is parsable. -/
def entryWF (e : Entry) : Prop :=
  e.title.isSome ∧ e.link.isSome ∧ e.published ≠ some none

/-- Recognises the save_memory write in the event trace. -/
def isSaveEv : Event → Bool
  | Event.aiCall _ _ => false
  | Event.send _ => false
  | Event.save _ => true

/-- A fixed trivial environment used to instantiate theorems. -/
def envA : Env :=
  { stocks := [], readMemory := .ok [], fetchFeed := fun _ => .ok [],
    clock := fun _ => 0, ai := fun _ => .ok "V" }

/-- A state whose seen set already holds the fingerprint of stock TCS and
title made of the word Tata followed by wins. -/
def dupSt : St := { seen := [fingerprint "TCS" "Tata wins"], clk := 0,
                    aiIdx := 0, events := [] }

/-- The empty starting state. -/
def oldSt : St := { seen := [], clk := 0, aiIdx := 0, events := [] }

/-- An environment whose clock always reads 200000 seconds. -/
def envOld : Env :=
  { stocks := [], readMemory := .ok [], fetchFeed := fun _ => .ok [],
    clock := fun _ => 200000, ai := fun _ => .ok "V" }

/-- A family of 2001 distinct fingerprints; c2fp n is added n-th. -/
def c2fp (n : Nat) : String := String.mk (List.replicate (n + 1) 'a')

/-- The insertion-ordered content of a seen set of 2001 fingerprints. -/
def c2insertion : List String := (List.range 2001).map c2fp

/-- A one-stock environment whose only feed entry lacks the title
attribute. -/
def env3 : Env :=
  { stocks := ["TCS"], readMemory := .ok [],
    fetchFeed := fun _ => .ok [Entry.mk none (some "L") none],
    clock := fun _ => 0, ai := fun _ => .ok "V" }

/-- A one-stock environment whose only feed entry is well formed and has
no published_parsed attribute. -/
def envWF : Env :=
  { stocks := ["TCS"], readMemory := .ok [],
    fetchFeed := fun _ => .ok [Entry.mk (some "T") (some "L") none],
    clock := fun _ => 0, ai := fun _ => .ok "V" }

/-- A three-stock watchlist with a clock that reads 0 for the start
reading and the check before the first stock, and 1000 seconds from then
on, so that the budget elapses after the first stock. -/
def env4 : Env :=
  { stocks := ["A", "B", "C"], readMemory := .ok [],
    fetchFeed := fun _ => .ok [Entry.mk (some "T") (some "L") none],
    clock := fun k => if k ≤ 1 then 0 else 1000, ai := fun _ => .ok "V" }

/-- An environment whose clock always reads 1000 seconds. -/
def envLate : Env :=
  { stocks := ["X"], readMemory := .ok [], fetchFeed := fun _ => .ok [],
    clock := fun _ => 1000, ai := fun _ => .ok "V" }

/-- A one-stock environment with one fresh well-formed feed entry, on
which the scan adds one fingerprint and therefore saves. -/
def envGrew : Env :=
  { stocks := ["A"], readMemory := .ok [],
    fetchFeed := fun _ => .ok [Entry.mk (some "T") (some "L") none],
    clock := fun _ => 0, ai := fun _ => .ok "V" }

/-- A message of 4001 identical characters, one more than the chunk
ceiling. -/
def longMsg : String := String.mk (List.replicate 4001 'a')

end TraderBot

namespace InstantAnalyst

/-- The chunking of send_telegram in instant_analyst.py:
`for i in range(0, len(message), 4000): chunk = message[i:i+4000]`.
The message is its list of characters. -/
def chunks (m : List Char) : List (List Char) :=
  if h : m = [] then []
  else m.take 4000 :: chunks (m.drop 4000)
termination_by m.length
decreasing_by
  simp only [List.length_drop]
  have hp : 0 < m.length := List.length_pos.mpr h
  omega

/-- One requests.post attempt of send_telegram in instant_analyst.py:
either with parse_mode Markdown or, in the fallback, with parse_mode
cleared (plain text). -/
inductive SendEv where
  | md (chunk : List Char)
  | plain (chunk : List Char)
deriving DecidableEq

/-- The per-chunk loop body of send_telegram in instant_analyst.py: post
the chunk with Markdown; if the post returns a status other than 200, post
the same chunk again with parse_mode cleared; a raising post is caught by
the surrounding try/except and triggers no fallback.  `outcome` is the
stream of post results (`error` = the post raised) and `k` the index of
the next post. -/
def sendChunks (outcome : Nat → Except Unit Nat) :
    List (List Char) → Nat → List SendEv
  | [], _ => []
  | c :: cs, k =>
      match outcome k with
      | .error _ => SendEv.md c :: sendChunks outcome cs (k + 1)
      | .ok status =>
          if status = 200 then SendEv.md c :: sendChunks outcome cs (k + 1)
          else SendEv.md c :: SendEv.plain c :: sendChunks outcome cs (k + 2)

/-- send_telegram of instant_analyst.py: the message is cut into chunks of
at most 4000 characters and each chunk is posted in order, with the
plain-text fallback on a rejected Markdown post. -/
def send_telegram (message : List Char) (outcome : Nat → Except Unit Nat) :
    List SendEv :=
  sendChunks outcome (chunks message) 0

/-- Observable effects of analyze_stock: a push message to the chat, the
PDF analysis of a document, the quarterly-results lookup, the news-feed
query, a generation-API call, and the market-data download. -/
inductive IAEv where
  | push (chatId msg : String)
  | pdfQuery (symbol url : String)
  | quarterlyQuery (symbol : String)
  | feedQuery (symbol : String)
  | aiQuery (symbol ctx content : String)
  | marketQuery (symbol : String)
deriving DecidableEq

/-- The yfinance download result used by the technical fallback: whether a
Close column is present, and the Close column itself (`none` entries are
the NaN rows removed by dropna).  The MultiIndex flattening of the source
only renames columns and has no counterpart here. -/
structure MarketData where
  hasClose : Bool
  closes : List (Option ℚ)
deriving DecidableEq

/-- Environment of one analyze_stock call: the result of
check_for_quarterly_results (treated as one collaborator query with an
optional hit), the feed entries of the news query, the successive
datetime.now() readings of the 48 hour filter, the analyze_pdf_report and
get_ai_verdict collaborators (both catch all their exceptions and always
return text), the yf.download result (`error e` = the download raised and
str(e) = e), and the float formatting used for display only. -/
structure IAEnv where
  quarterly : Option String
  feedEntries : List TraderBot.Entry
  nowAt : Nat → Int
  pdfReport : String → String → String
  verdict : String → String → String → String
  marketData : Except String MarketData
  fmt2 : ℚ → String

/-- The news filter of analyze_stock: keep, from the given entries, the
(title, link) pairs of those that have a published_parsed attribute and
are strictly younger than 48 hours at the datetime.now() reading made for
them; entries without the attribute are dropped; a present but unparsable
attribute raises, and so does a kept entry without title or link. -/
def recentNews (nowAt : Nat → Int) :
    List TraderBot.Entry → Nat → Except TraderBot.PyErr (List (String × String))
  | [], _ => .ok []
  | e :: es, k =>
      match e.published with
      | none => recentNews nowAt es k
      | some none => .error TraderBot.PyErr.typeError
      | some (some t) =>
          if nowAt k - t < 172800 then
            match e.title, e.link with
            | some ti, some li =>
                (recentNews nowAt es (k + 1)).map (fun r => (ti, li) :: r)
            | _, _ => .error TraderBot.PyErr.attrError
          else recentNews nowAt es (k + 1)

/-- The yfinance symbol: symbol itself when it ends with the suffix of
two letters N and S after a dot, the symbol with that suffix appended
otherwise. -/
def yfSymbol (symbol : String) : String :=
  if symbol.endsWith ".NS" then symbol else symbol ++ ".NS"

/-- The symbol split on dots, first field: the market suffix removed. -/
def cleanSymbol (symbol : String) : String :=
  (TraderBot.pySplit '.' symbol).headD ""

/-- The technical fallback (step 3 of PATH B): download the market data
(a raising download is caught and reported by a push), require the Close
column, drop the NaN rows, and with more than 50 rows compare the last
close against the mean of the last 50 closes, pushing the verdict;
otherwise push the no-data message. -/
def technicalStep (env : IAEnv) (symbol chat_id : String) : IAEv :=
  match env.marketData with
  | .error e => IAEv.push chat_id ("❌ Error: " ++ e)
  | .ok d =>
      if d.hasClose then
        let closes := d.closes.filterMap id
        if closes.length > 50 then
          let cur := closes.getLastD 0
          let dma := (closes.drop (closes.length - 50)).sum / 50
          let status := if cur > dma then "BULLISH" else "BEARISH"
          let diff := (cur - dma) / dma * 100
          IAEv.push chat_id ("📉 **Technical: " ++ symbol ++ "**\nVerdict: "
            ++ status ++ "\nPrice vs 50DMA: " ++ env.fmt2 diff ++ "%")
        else IAEv.push chat_id ("ℹ️ No Data found for " ++ symbol)
      else IAEv.push chat_id "❌ YF Error: Missing \x27Close\x27 column."

/-- PATH B of analyze_stock (lines 245-295): the quarterly-results check,
then the news check on the top 3 feed entries, then the technical
fallback; each hit pushes one message and returns. -/
def analyzeAuto (env : IAEnv) (symbol chat_id : String) :
    Except TraderBot.PyErr (List IAEv) :=
  let evQ := IAEv.quarterlyQuery (cleanSymbol symbol)
  match env.quarterly with
  | some fd =>
      .ok [evQ, IAEv.aiQuery symbol "FINANCIALS" fd,
           IAEv.push chat_id ("💰 **QTR RESULTS: " ++ symbol ++ "**\n\n"
             ++ env.verdict symbol "FINANCIALS" fd)]
  | none =>
      let evF := IAEv.feedQuery symbol
      match recentNews env.nowAt (env.feedEntries.take 3) 0 with
      | .error err => .error err
      | .ok [] =>
          .ok [evQ, evF, IAEv.marketQuery (yfSymbol symbol),
               technicalStep env symbol chat_id]
      | .ok ((ti, li) :: _) =>
          .ok [evQ, evF, IAEv.aiQuery symbol "NEWS" ti,
               IAEv.push chat_id ("📰 **NEWS: " ++ symbol ++ "**\n"
                 ++ env.verdict symbol "NEWS" ti ++ "\n🔗 [Link](" ++ li ++ ")")]

/-- analyze_stock of instant_analyst.py (lines 237-295): PATH A runs the
PDF deep dive and returns whenever a specific_url that is truthy and
longer than 5 characters is given; otherwise PATH B runs.  Pushes are
logical message dispatches; their chunked transport is send_telegram. -/
def analyze_stock (env : IAEnv) (symbol chat_id : String)
    (specific_url : Option String) : Except TraderBot.PyErr (List IAEv) :=
  match specific_url with
  | some u =>
      if u.length > 5 then
        .ok [IAEv.push chat_id ("🔄 **Reading Document...**\n" ++ u),
             IAEv.pdfQuery symbol u,
             IAEv.push chat_id (env.pdfReport symbol u)]
      else analyzeAuto env symbol chat_id
  | none => analyzeAuto env symbol chat_id

/-- The chunks carried by the Markdown attempts of a send trace, in
order. -/
def mdPayloads : List SendEv → List (List Char)
  | [] => []
  | SendEv.md c :: rest => c :: mdPayloads rest
  | SendEv.plain _ :: rest => mdPayloads rest

/-- A well-formed send trace: a plain-text attempt never opens the trace
and only ever immediately follows a Markdown attempt of the same chunk. -/
def okTrace : List SendEv → Bool
  | [] => true
  | SendEv.plain _ :: _ => false
  | [SendEv.md _] => true
  | SendEv.md c :: SendEv.plain c₂ :: rest => (c == c₂) && okTrace rest
  | SendEv.md _ :: rest => okTrace rest

/-- A fixed environment for instantiating the analyze_stock theorems:
no quarterly hit, no feed entries, a failing market download. -/
def env10 : IAEnv :=
  { quarterly := none, feedEntries := [], nowAt := fun _ => 0,
    pdfReport := fun _ _ => "R", verdict := fun _ _ _ => "V",
    marketData := .error "E", fmt2 := fun _ => "0.00" }

end InstantAnalyst

namespace TraderBot

theorem sendLoop_eq_map (message : String) (deliver : Nat → Bool)
    (us : List String) (k : Nat) :
    sendLoop message deliver us k = us.map (fun u => (pyStrip u, message)) := by
  induction us generalizing k with
  | nil => rfl
  | cons u us ih => simp [sendLoop, ih]

/-- C1: an item whose fingerprint (the symbol joined with the first 40
characters of the title) is already in the seen set triggers neither a
generation-API call nor a send_telegram dispatch, and leaves the seen set
unchanged: the item body adds no event and no fingerprint. -/
theorem duplicate_item_not_reprocessed (env : Env) (stock : String)
    (e : Entry) (s : St) (title : String) (ht : e.title = some title)
    (hm : fingerprint stock title ∈ s.seen) :
    (processEntry env stock e s).1.events = s.events ∧
    (processEntry env stock e s).1.seen = s.seen := by
  cases e with
  | mk t l p =>
    cases ht
    cases l with
    | none => simp [processEntry]
    | some link =>
      cases p with
      | none => simp [processEntry, afterAge, hm]
      | some pp =>
        cases pp with
        | none => simp [processEntry]
        | some ts =>
          simp only [processEntry]
          split
          · simp
          · simp [afterAge, hm]

theorem duplicate_item_not_reprocessed_witness :
    (Entry.mk (some "Tata wins") (some "L") none).title = some "Tata wins" ∧
    fingerprint "TCS" "Tata wins" ∈ dupSt.seen ∧
    ((processEntry envA "TCS" (Entry.mk (some "Tata wins") (some "L") none)
        dupSt).1.events = dupSt.events ∧
      (processEntry envA "TCS" (Entry.mk (some "Tata wins") (some "L") none)
        dupSt).1.seen = dupSt.seen) :=
  ⟨rfl, by decide,
    duplicate_item_not_reprocessed envA "TCS" _ dupSt "Tata wins" rfl
      (by decide)⟩

/-- C5 (counterexample to the unamended claim): not every item lacking a
parseable timestamp is passed through to the duplicate check.  A concrete
item whose published_parsed attribute is present but not parsable raises
TypeError in the item body — the run aborts with the state untouched —
and in particular its outcome differs from the duplicate-check
continuation the claim promises for it. -/
theorem unparsable_timestamp_not_passed_through :
    processEntry envA "TCS" (Entry.mk (some "T") (some "L") (some none)) oldSt
      = (oldSt, some PyErr.typeError) ∧
    processEntry envA "TCS" (Entry.mk (some "T") (some "L") (some none)) oldSt
      ≠ afterAge envA "TCS" "T" "L" oldSt := by
  constructor
  · rfl
  · decide

/-- C5 (amended): the age filter.  First part: an item with a parsed
timestamp whose age at the datetime.now() reading exceeds 24 hours (86400
seconds) is skipped before fingerprinting — the item body returns with
only the clock index advanced, so no generation call happens and no
fingerprint is added.  Second part: an item without a published_parsed
attribute passes through the age filter unfiltered, straight to the
duplicate check (`afterAge` starts with the duplicate check).  Third
part: an item whose published_parsed attribute is present but not
parsable does not pass through — slicing it raises an uncaught TypeError
and the item body aborts with the state unchanged. -/
theorem age_filter_skips_before_fingerprint :
    (∀ (env : Env) (stock : String) (s : St) (title link : String) (t : Int),
      env.clock s.clk - t > 86400 →
      processEntry env stock (Entry.mk (some title) (some link) (some (some t))) s
        = ({ s with clk := s.clk + 1 }, none)) ∧
    (∀ (env : Env) (stock : String) (s : St) (title link : String),
      processEntry env stock (Entry.mk (some title) (some link) none) s
        = afterAge env stock title link s) ∧
    (∀ (env : Env) (stock : String) (s : St) (title link : String),
      processEntry env stock (Entry.mk (some title) (some link) (some none)) s
        = (s, some PyErr.typeError)) := by
  refine ⟨?_, ?_, ?_⟩
  · intro env stock s title link t h
    simp [processEntry, h]
  · intro env stock s title link
    rfl
  · intro env stock s title link
    rfl

theorem age_filter_skips_before_fingerprint_witness :
    envOld.clock oldSt.clk - 0 > 86400 ∧
    processEntry envOld "TCS" (Entry.mk (some "T") (some "L") (some (some 0)))
        oldSt = ({ oldSt with clk := oldSt.clk + 1 }, none) :=
  ⟨by decide,
    age_filter_skips_before_fingerprint.1 envOld "TCS" oldSt "T" "L" 0
      (by decide)⟩

/-- C6: send_telegram of trader_bot.py attempts delivery to every id of
the comma-separated CHAT_ID independently.  First part: the list of
attempts does not depend on the delivery outcomes at all (every post is
wrapped in try/except), so no failure can prevent a later attempt.
Second part: CHAT_ID "123,456" yields exactly the two attempts to "123"
and "456", in order, whatever the outcomes. -/
theorem recipients_attempted_independently :
    (∀ (chatID message : String) (d d' : Nat → Bool),
      send_telegram chatID message d = send_telegram chatID message d') ∧
    (∀ (message : String) (d : Nat → Bool),
      send_telegram "123,456" message d
        = [("123", message), ("456", message)]) := by
  constructor
  · intro chatID message d d'
    simp [send_telegram, sendLoop_eq_map]
  · intro message d
    rfl

/-- C8: load_memory returns the set of fingerprints persisted in the
memory file (as a set: same elements, no duplicates), and on any read or
parse failure it returns the empty set instead of raising. -/
theorem load_memory_fail_open :
    (∀ l : List String,
      (load_memory (Except.ok l)).toFinset = l.toFinset ∧
      (load_memory (Except.ok l)).Nodup) ∧
    (∀ e : Unit, load_memory (Except.error e) = []) := by
  refine ⟨fun l => ⟨?_, l.nodup_dedup⟩, fun _ => rfl⟩
  ext a
  simp [load_memory, List.mem_dedup]

/-- C2 (code bug): save_memory keeps the last 2000 elements of the
Python set enumeration, which is hash-ordered, not insertion-ordered.
For the seen set inserted in the order `c2insertion`, the enumeration
`c2insertion.reverse` is a legitimate iteration order of the same set,
yet save_memory then drops the most recently added fingerprint `c2fp
2000` — which the 2000 most-recently-added suffix of the insertion order
contains — so the persisted list is not the K most recently added items. -/
theorem save_memory_ignores_insertion_order :
    c2insertion.reverse.Perm c2insertion ∧
    2000 < c2insertion.length ∧
    c2fp 2000 ∈ c2insertion.drop (c2insertion.length - 2000) ∧
    c2fp 2000 ∉ save_memory c2insertion.reverse := by
  have hlen : c2insertion.length = 2001 := by simp [c2insertion]
  have hsplit : c2insertion = (List.range 2000).map c2fp ++ [c2fp 2000] := by
    show (List.range 2001).map c2fp = (List.range 2000).map c2fp ++ [c2fp 2000]
    rw [show (2001 : ℕ) = 2000 + 1 from rfl, List.range_succ, List.map_append]
    rfl
  refine ⟨List.reverse_perm _, by rw [hlen]; norm_num, ?_, ?_⟩
  · rw [hlen, hsplit, show (2001 - 2000 : ℕ) = 1 from rfl,
      List.drop_append_of_le_length (by simp)]
    exact List.mem_append_right _ (List.mem_singleton.mpr rfl)
  · have hrev : c2insertion.reverse
        = c2fp 2000 :: ((List.range 2000).map c2fp).reverse := by
      rw [hsplit]; simp
    have hl : ((List.range 2000).map c2fp).reverse.length = 2000 := by
      simp
    have hsave : save_memory c2insertion.reverse
        = ((List.range 2000).map c2fp).reverse := by
      rw [save_memory, hrev, List.length_cons, hl]
      norm_num
    rw [hsave, List.mem_reverse, List.mem_map]
    rintro ⟨m, hm, heq⟩
    have hdata := congrArg String.data heq
    simp only [c2fp] at hdata
    have hml := congrArg List.length hdata
    simp only [List.length_replicate] at hml
    have : m < 2000 := List.mem_range.mp hm
    omega

theorem afterAge_no_err (env : Env) (stock title link : String) (s : St) :
    (afterAge env stock title link s).2 = none := by
  unfold afterAge
  split <;> rfl

theorem processEntry_no_err (env : Env) (stock : String) (e : Entry)
    (s : St) (h : entryWF e) : (processEntry env stock e s).2 = none := by
  obtain ⟨h1, h2, h3⟩ := h
  cases e with
  | mk t l p =>
    cases t with
    | none => simp at h1
    | some title =>
      cases l with
      | none => simp at h2
      | some link =>
        cases p with
        | none => exact afterAge_no_err env stock title link s
        | some pp =>
          cases pp with
          | none => simp at h3
          | some ts =>
            simp only [processEntry]
            split
            · rfl
            · exact afterAge_no_err env stock title link _

theorem processEntries_no_err (env : Env) (stock : String) (es : List Entry)
    (s : St) (h : ∀ e ∈ es, entryWF e) :
    (processEntries env stock es s).2 = none := by
  induction es generalizing s with
  | nil => rfl
  | cons e es ih =>
    have he := h e (List.mem_cons_self e es)
    cases hpe : processEntry env stock e s with
    | mk s' err =>
      have : err = none := by
        have := processEntry_no_err env stock e s he
        rw [hpe] at this
        exact this
      subst this
      simp only [processEntries, hpe]
      exact ih s' (fun e' he' => h e' (List.mem_cons_of_mem e he'))

theorem processStock_no_err (env : Env) (i : Nat) (stock : String) (s : St)
    (h : ∀ entries, env.fetchFeed i = .ok entries → ∀ e ∈ entries, entryWF e) :
    (processStock env i stock s).2 = none := by
  cases hf : env.fetchFeed i with
  | error u => simp [processStock, hf]
  | ok entries =>
    simp only [processStock, hf]
    split
    · rfl
    · exact processEntries_no_err env stock (entries.take 3) s
        (fun e he => h entries hf e (List.take_subset 3 entries he))

theorem loopStocks_no_err (env : Env) (startT : Int)
    (l : List (Nat × String)) (s : St)
    (h : ∀ i entries, env.fetchFeed i = .ok entries → ∀ e ∈ entries, entryWF e) :
    (loopStocks env startT l s).2 = none := by
  induction l generalizing s with
  | nil => rfl
  | cons p rest ih =>
    obtain ⟨i, stock⟩ := p
    simp only [loopStocks]
    split
    · rfl
    · cases hps : processStock env i stock
          { s with clk := s.clk + 1 } with
      | mk s₂ err =>
        have : err = none := by
          have := processStock_no_err env i stock { s with clk := s.clk + 1 }
            (fun entries hf => h i entries hf)
          rw [hps] at this
          exact this
        subst this
        exact ih s₂

/-- C3 (amended): error containment in check_market_news.  First part: a
raising feed fetch is caught and only skips that watchlist entry, leaving
the state untouched.  Second part: when every successfully fetched entry
is well formed (title and link present, published_parsed parsable when
present), the function never raises, whatever the feed fetch, generation
and delivery behaviours — the generation and delivery helpers catch their
own exceptions — so the run always reaches the final save step.  (The
unamended claim is refuted by `missing_title_aborts_before_save`: an
exception inside the item body, such as reading an absent title
attribute, is not caught and aborts the run before save.) -/
theorem scan_loop_error_containment :
    (∀ (env : Env) (i : Nat) (stock : String) (s : St),
      env.fetchFeed i = .error () → processStock env i stock s = (s, none)) ∧
    (∀ env : Env,
      (∀ i entries, env.fetchFeed i = .ok entries → ∀ e ∈ entries, entryWF e) →
      (check_market_news env).2 = none) := by
  constructor
  · intro env i stock s hf
    simp [processStock, hf]
  · intro env h
    simp only [check_market_news]
    cases hloop : loopStocks env (env.clock 0) env.stocks.enum
        { seen := load_memory env.readMemory, clk := 1, aiIdx := 0,
          events := [] } with
    | mk s' err =>
      have : err = none := by
        have := loopStocks_no_err env (env.clock 0) env.stocks.enum
          { seen := load_memory env.readMemory, clk := 1, aiIdx := 0,
            events := [] } h
        rw [hloop] at this
        exact this
      subst this
      have hfin : finalize (load_memory env.readMemory).length (s', none)
          = if s'.seen.length > (load_memory env.readMemory).length then
              ({ s' with events := s'.events ++ [Event.save s'.seen] }, none)
            else (s', none) := rfl
      rw [hfin]
      split <;> rfl

theorem scan_loop_error_containment_witness :
    (∀ i entries, envWF.fetchFeed i = .ok entries → ∀ e ∈ entries, entryWF e) ∧
    (check_market_news envWF).2 = none := by
  have hwf : ∀ i entries, envWF.fetchFeed i = .ok entries →
      ∀ e ∈ entries, entryWF e := by
    intro i entries heq e he
    have h' : (Except.ok [Entry.mk (some "T") (some "L") none] :
        Except Unit (List Entry)) = Except.ok entries := heq
    have := (Except.ok.inj h').symm
    subst this
    simp only [List.mem_singleton] at he
    subst he
    exact ⟨rfl, rfl, by simp⟩
  exact ⟨hwf, scan_loop_error_containment.2 envWF hwf⟩

/-- C3 (counterexample to the unamended claim): a feed entry without a
title attribute makes the item body raise AttributeError, which no
handler catches: the run aborts with the exception and the event trace is
empty, so the save step is never reached. -/
theorem missing_title_aborts_before_save :
    check_market_news env3
      = ({ seen := [], clk := 2, aiIdx := 0, events := [] },
          some PyErr.attrError) := by
  decide

/-- C4: the wall-clock budget.  First part: whenever the reading taken
before a watchlist entry shows more than 270 seconds elapsed since the
start reading, the loop stops at once: no further entry is started, no
event is added and the seen set is untouched (only the clock index moved).
Second part: on the three-stock watchlist of `env4`, whose clock passes
the budget right after the first stock, exactly the item of that stock is
processed — one generation call and one dispatch, both for stock A — the
remaining two stocks are skipped without raising, and the fingerprint
added by the processed stock is kept and saved. -/
theorem time_budget_halts_scan :
    (∀ (env : Env) (startT : Int) (s : St) (i : Nat) (stock : String)
        (rest : List (Nat × String)),
      env.clock s.clk - startT > 270 →
      loopStocks env startT ((i, stock) :: rest) s
        = ({ s with clk := s.clk + 1 }, none)) ∧
    check_market_news env4
      = ({ seen := [fingerprint "A" "T"], clk := 3, aiIdx := 1,
           events := [Event.aiCall "A" "T",
                      Event.send "🚨 **A**\nV\n📰 T\n[Source](L)",
                      Event.save [fingerprint "A" "T"]] }, none) := by
  constructor
  · intro env startT s i stock rest h
    simp [loopStocks, h]
  · decide

theorem time_budget_halts_scan_witness :
    envLate.clock oldSt.clk - 0 > 270 ∧
    loopStocks envLate 0 [(0, "X")] oldSt
      = ({ oldSt with clk := oldSt.clk + 1 }, none) :=
  ⟨by decide, time_budget_halts_scan.1 envLate 0 oldSt 0 "X" [] (by decide)⟩

theorem afterAge_countP (env : Env) (stock title link : String) (s : St) :
    (afterAge env stock title link s).1.events.countP isSaveEv
      = s.events.countP isSaveEv := by
  unfold afterAge
  split
  · rfl
  · simp [List.countP_append, isSaveEv]

theorem processEntry_countP (env : Env) (stock : String) (e : Entry)
    (s : St) :
    (processEntry env stock e s).1.events.countP isSaveEv
      = s.events.countP isSaveEv := by
  cases e with
  | mk t l p =>
    cases t with
    | none => rfl
    | some title =>
      cases l with
      | none => rfl
      | some link =>
        cases p with
        | none => exact afterAge_countP env stock title link s
        | some pp =>
          cases pp with
          | none => rfl
          | some ts =>
            simp only [processEntry]
            split
            · rfl
            · exact afterAge_countP env stock title link _

theorem processEntries_countP (env : Env) (stock : String) (es : List Entry)
    (s : St) :
    (processEntries env stock es s).1.events.countP isSaveEv
      = s.events.countP isSaveEv := by
  induction es generalizing s with
  | nil => rfl
  | cons e es ih =>
    cases hpe : processEntry env stock e s with
    | mk s' err =>
      have hc : s'.events.countP isSaveEv = s.events.countP isSaveEv := by
        have := processEntry_countP env stock e s
        rw [hpe] at this
        exact this
      cases err with
      | none =>
        simp only [processEntries, hpe]
        rw [ih s', hc]
      | some e' =>
        simp only [processEntries, hpe]
        exact hc

theorem processStock_countP (env : Env) (i : Nat) (stock : String) (s : St) :
    (processStock env i stock s).1.events.countP isSaveEv
      = s.events.countP isSaveEv := by
  cases hf : env.fetchFeed i with
  | error u => simp [processStock, hf]
  | ok entries =>
    simp only [processStock, hf]
    split
    · rfl
    · exact processEntries_countP env stock (entries.take 3) s

theorem loopStocks_countP (env : Env) (startT : Int)
    (l : List (Nat × String)) (s : St) :
    (loopStocks env startT l s).1.events.countP isSaveEv
      = s.events.countP isSaveEv := by
  induction l generalizing s with
  | nil => rfl
  | cons p rest ih =>
    obtain ⟨i, stock⟩ := p
    simp only [loopStocks]
    split
    · rfl
    · cases hps : processStock env i stock { s with clk := s.clk + 1 } with
      | mk s₂ err =>
        have hc : s₂.events.countP isSaveEv = s.events.countP isSaveEv := by
          have := processStock_countP env i stock { s with clk := s.clk + 1 }
          rw [hps] at this
          exact this
        cases err with
        | none => rw [ih s₂, hc]
        | some e' => exact hc

/-- C9: the memory store is written at most once per run; on a completed
run it is written exactly once when the seen set grew beyond its size at
load and not at all otherwise, the write is the very last event of the
run, and an aborted run writes nothing. -/
theorem save_exactly_once_iff_grew (env : Env) (s : St) (r : Option PyErr)
    (h : check_market_news env = (s, r)) :
    s.events.countP isSaveEv ≤ 1 ∧
    (∀ e ∈ s.events.dropLast, isSaveEv e = false) ∧
    (r = none →
      s.events.countP isSaveEv
        = if s.seen.length > (load_memory env.readMemory).length then 1
          else 0) ∧
    (r ≠ none → s.events.countP isSaveEv = 0) := by
  simp only [check_market_news] at h
  cases hloop : loopStocks env (env.clock 0) env.stocks.enum
      { seen := load_memory env.readMemory, clk := 1, aiIdx := 0,
        events := [] } with
  | mk s' err =>
    have hc : s'.events.countP isSaveEv = 0 := by
      have := loopStocks_countP env (env.clock 0) env.stocks.enum
        { seen := load_memory env.readMemory, clk := 1, aiIdx := 0,
          events := [] }
      rw [hloop] at this
      exact this
    have hall : ∀ e ∈ s'.events, ¬ (isSaveEv e = true) :=
      List.countP_eq_zero.mp hc
    rw [hloop] at h
    cases err with
    | some e' =>
      have h' : ((s', some e') : St × Option PyErr) = (s, r) := h
      cases h'
      refine ⟨by omega, ?_, ?_, fun _ => hc⟩
      · intro e he
        exact Bool.not_eq_true _ ▸ hall e (List.dropLast_subset _ he)
      · intro hr
        exact absurd hr (by simp)
    | none =>
      have h' : ((if s'.seen.length > (load_memory env.readMemory).length
          then ({ s' with events := s'.events ++ [Event.save s'.seen] },
                 none)
          else (s', none)) : St × Option PyErr) = (s, r) := h
      by_cases hg : s'.seen.length > (load_memory env.readMemory).length
      · rw [if_pos hg] at h'
        cases h'
        have hcnt : ({ s' with events := s'.events ++ [Event.save s'.seen] }
            : St).events.countP isSaveEv = 1 := by
          show (s'.events ++ [Event.save s'.seen]).countP isSaveEv = 1
          rw [List.countP_append, hc]
          rfl
        refine ⟨by rw [hcnt], ?_, fun _ => ?_, fun hr => absurd rfl hr⟩
        · intro e he
          have he' : e ∈ s'.events := by
            have : ({ s' with events := s'.events ++ [Event.save s'.seen] }
                : St).events.dropLast = s'.events := List.dropLast_concat
            rw [this] at he
            exact he
          exact Bool.not_eq_true _ ▸ hall e he'
        · rw [hcnt, if_pos hg]
      · rw [if_neg hg] at h'
        cases h'
        refine ⟨by omega, ?_, fun _ => ?_, fun hr => absurd rfl hr⟩
        · intro e he
          exact Bool.not_eq_true _ ▸ hall e (List.dropLast_subset _ he)
        · rw [hc, if_neg hg]

theorem save_exactly_once_iff_grew_witness :
    ([Event.aiCall "A" "T", Event.send "🚨 **A**\nV\n📰 T\n[Source](L)",
      Event.save [fingerprint "A" "T"]] : List Event).countP isSaveEv
      = if ([fingerprint "A" "T"] : List String).length
            > (load_memory (Except.ok ([] : List String))).length then 1
        else 0 :=
  (save_exactly_once_iff_grew envGrew
    { seen := [fingerprint "A" "T"], clk := 2, aiIdx := 1,
      events := [Event.aiCall "A" "T",
                 Event.send "🚨 **A**\nV\n📰 T\n[Source](L)",
                 Event.save [fingerprint "A" "T"]] } none
    (by decide)).2.2.1 rfl

/-- C7 (counterexample to the unamended claim): the send path of
trader_bot.py does not chunk at all — a message of 4001 characters, one
more than the ceiling, is posted in a single attempt carrying the whole
message, and no plain-text fallback exists in that version. -/
theorem trader_send_exceeds_chunk_ceiling :
    send_telegram "123" longMsg (fun _ => false) = [("123", longMsg)] ∧
    4000 < longMsg.length := by
  constructor
  · rfl
  · show 4000 < longMsg.length
    rw [show longMsg = String.mk (List.replicate 4001 'a') from rfl,
        String.length_mk, List.length_replicate]
    norm_num

end TraderBot

namespace InstantAnalyst

theorem okTrace_cons_md (c : List Char) (t : List SendEv)
    (h : okTrace t = true) : okTrace (SendEv.md c :: t) = true := by
  match t with
  | [] => rfl
  | SendEv.plain _ :: _ => simp [okTrace] at h
  | SendEv.md _ :: _ => exact h

/-- C7 (amended): the chunked send path of instant_analyst.py, and the
unchunked one of trader_bot.py.  For send_telegram of instant_analyst.py:
every chunk is at most 4000 characters; the chunks concatenate, in order,
to the original message; the Markdown attempts of the send trace carry
exactly those chunks in order; a plain-text attempt only ever immediately
follows a Markdown attempt of the same chunk; and whenever the Markdown
post of a chunk returns a non-200 status, the same chunk is immediately
re-sent as plain text.  For send_telegram of trader_bot.py: every attempt
carries the whole message, unchunked. -/
theorem chunked_send_with_fallback :
    (∀ message : List Char, ∀ c ∈ chunks message, c.length ≤ 4000) ∧
    (∀ message : List Char, (chunks message).flatten = message) ∧
    (∀ (message : List Char) (outcome : Nat → Except Unit Nat),
      mdPayloads (send_telegram message outcome) = chunks message) ∧
    (∀ (message : List Char) (outcome : Nat → Except Unit Nat),
      okTrace (send_telegram message outcome) = true) ∧
    (∀ (outcome : Nat → Except Unit Nat) (k : Nat) (c : List Char)
        (cs : List (List Char)) (s : Nat),
      outcome k = .ok s → s ≠ 200 →
      sendChunks outcome (c :: cs) k
        = SendEv.md c :: SendEv.plain c :: sendChunks outcome cs (k + 2)) ∧
    (∀ (chatID msg : String) (d : Nat → Bool) (p : String × String),
      p ∈ TraderBot.send_telegram chatID msg d → p.2 = msg) := by
  have hmd : ∀ (outcome : Nat → Except Unit Nat) (cs : List (List Char))
      (k : Nat), mdPayloads (sendChunks outcome cs k) = cs := by
    intro outcome cs
    induction cs with
    | nil => intro k; rfl
    | cons c cs ih =>
      intro k
      simp only [sendChunks]
      cases outcome k with
      | error u => simp [mdPayloads, ih]
      | ok s =>
        by_cases hs : s = 200
        · simp [hs, mdPayloads, ih]
        · simp [hs, mdPayloads, ih]
  have hok : ∀ (outcome : Nat → Except Unit Nat) (cs : List (List Char))
      (k : Nat), okTrace (sendChunks outcome cs k) = true := by
    intro outcome cs
    induction cs with
    | nil => intro k; rfl
    | cons c cs ih =>
      intro k
      simp only [sendChunks]
      cases outcome k with
      | error u => exact okTrace_cons_md c _ (ih (k + 1))
      | ok s =>
        by_cases hs : s = 200
        · simp only [hs, if_pos rfl]
          exact okTrace_cons_md c _ (ih (k + 1))
        · simp only [if_neg hs]
          simp [okTrace, ih (k + 2)]
  refine ⟨?_, ?_, ?_, ?_, ?_, ?_⟩
  · intro message
    induction message using chunks.induct with
    | case1 => rw [chunks]; simp
    | case2 m h ih =>
      rw [chunks, dif_neg h]
      intro c hc
      rcases List.mem_cons.mp hc with hc | hc
      · subst hc; simp [List.length_take]
      · exact ih c hc
  · intro message
    induction message using chunks.induct with
    | case1 => rw [chunks]; simp
    | case2 m h ih =>
      rw [chunks, dif_neg h]
      simp only [List.flatten_cons, ih]
      exact List.take_append_drop 4000 m
  · intro message outcome
    exact hmd outcome (chunks message) 0
  · intro message outcome
    exact hok outcome (chunks message) 0
  · intro outcome k c cs s h hs
    simp only [sendChunks, h, if_neg hs]
  · intro chatID msg d p hp
    simp only [TraderBot.send_telegram, TraderBot.sendLoop_eq_map,
      List.mem_map] at hp
    obtain ⟨u, _, hu⟩ := hp
    rw [← hu]

theorem chunked_send_with_fallback_witness :
    (fun _ : Nat => (Except.ok 400 : Except Unit Nat)) 0 = Except.ok 400 ∧
    sendChunks (fun _ : Nat => (Except.ok 400 : Except Unit Nat)) [['a']] 0
      = [SendEv.md ['a'], SendEv.plain ['a']] :=
  ⟨rfl, chunked_send_with_fallback.2.2.2.2.1
    (fun _ => Except.ok 400) 0 ['a'] [] 400 rfl (by decide)⟩

/-- C10: analyze_stock follows exactly one analysis path, by fixed
priority, returning immediately after its dispatch.  (a) A specific_url
longer than 5 characters runs only the PDF analysis: the event trace
holds no quarterly, feed or market query.  (b) Otherwise a
quarterly-results hit dispatches the financials verdict and suppresses
the news and technical paths.  (c) With no quarterly hit, a recent news
item (strictly younger than 48 hours, from the top 3 feed entries)
dispatches the news verdict and suppresses the technical path.  (d) Only
when both earlier paths found nothing does the 50-day-moving-average
technical analysis run.  (e) The technical step always dispatches exactly
one push message. -/
theorem analysis_path_priority :
    (∀ (env : IAEnv) (symbol chat_id u : String), 5 < u.length →
      analyze_stock env symbol chat_id (some u)
        = .ok [IAEv.push chat_id ("🔄 **Reading Document...**\n" ++ u),
               IAEv.pdfQuery symbol u,
               IAEv.push chat_id (env.pdfReport symbol u)]) ∧
    (∀ (env : IAEnv) (symbol chat_id fd : String),
      env.quarterly = some fd →
      analyze_stock env symbol chat_id none
        = .ok [IAEv.quarterlyQuery (cleanSymbol symbol),
               IAEv.aiQuery symbol "FINANCIALS" fd,
               IAEv.push chat_id ("💰 **QTR RESULTS: " ++ symbol ++ "**\n\n"
                 ++ env.verdict symbol "FINANCIALS" fd)]) ∧
    (∀ (env : IAEnv) (symbol chat_id ti li : String)
        (rest : List (String × String)),
      env.quarterly = none →
      recentNews env.nowAt (env.feedEntries.take 3) 0 = .ok ((ti, li) :: rest) →
      analyze_stock env symbol chat_id none
        = .ok [IAEv.quarterlyQuery (cleanSymbol symbol),
               IAEv.feedQuery symbol,
               IAEv.aiQuery symbol "NEWS" ti,
               IAEv.push chat_id ("📰 **NEWS: " ++ symbol ++ "**\n"
                 ++ env.verdict symbol "NEWS" ti ++ "\n🔗 [Link](" ++ li
                 ++ ")")]) ∧
    (∀ (env : IAEnv) (symbol chat_id : String),
      env.quarterly = none →
      recentNews env.nowAt (env.feedEntries.take 3) 0 = .ok [] →
      analyze_stock env symbol chat_id none
        = .ok [IAEv.quarterlyQuery (cleanSymbol symbol),
               IAEv.feedQuery symbol,
               IAEv.marketQuery (yfSymbol symbol),
               technicalStep env symbol chat_id]) ∧
    (∀ (env : IAEnv) (symbol chat_id : String),
      ∃ m, technicalStep env symbol chat_id = IAEv.push chat_id m) := by
  refine ⟨?_, ?_, ?_, ?_, ?_⟩
  · intro env symbol chat_id u h
    simp [analyze_stock, h]
  · intro env symbol chat_id fd h
    simp [analyze_stock, analyzeAuto, h]
  · intro env symbol chat_id ti li rest hq hr
    simp [analyze_stock, analyzeAuto, hq, hr]
  · intro env symbol chat_id hq hr
    simp [analyze_stock, analyzeAuto, hq, hr]
  · intro env symbol chat_id
    unfold technicalStep
    cases env.marketData with
    | error e => exact ⟨_, rfl⟩
    | ok d =>
      by_cases hc : d.hasClose
      · simp only [hc, if_pos rfl]
        by_cases hl : (d.closes.filterMap id).length > 50
        · simp only [if_pos hl]
          exact ⟨_, rfl⟩
        · simp only [if_neg hl]
          exact ⟨_, rfl⟩
      · simp only [if_neg hc]
        exact ⟨_, rfl⟩

theorem analysis_path_priority_witness :
    5 < ("http://x" : String).length ∧
    analyze_stock env10 "TCS" "9" (some "http://x")
      = .ok [IAEv.push "9" ("🔄 **Reading Document...**\n" ++ "http://x"),
             IAEv.pdfQuery "TCS" "http://x",
             IAEv.push "9" (env10.pdfReport "TCS" "http://x")] :=
  ⟨by decide, analysis_path_priority.1 env10 "TCS" "9" "http://x" (by decide)⟩

end InstantAnalyst
